import Mathlib

/-!
# SLI recording rule generation (`internal/prometheus/recording_rules.go`)

A shallow embedding of `sliRecordingRulesGenerator.GenerateSLIRecordingRules` and of
`defaultSLIRecordGenerator`, followed by the properties established about them.

Modelling conventions:

* Go strings are `String`; the template engine works on their characters (`List Char`).
* `time.Duration` is an integer number of nanoseconds.
* `map[string]string` is a partial function from keys to values.
* a Go result pair `(value, error)` of a builder is an `Except`; the result pair of
  `GenerateSLIRecordingRules` keeps both components, so that a nil rule slice is visible.
* the helpers `getAlertGroupWindows` and `timeDurationToPromStr` are not in the file; they
  are fields of an environment `Env`, so every theorem holds for all implementations of them.
-/

set_option autoImplicit false

namespace Sloth

/-! ## Data model -/

/-- Go `time.Duration`: a signed count of nanoseconds. -/
abbrev Duration := Int

/-- Go `map[string]string`, read through its lookup. -/
abbrev Labels := String → Option String

/-- The empty (or nil) label map. -/
def Labels.empty : Labels := fun _ => none

/-- The map literal with one entry. -/
def Labels.single (k v : String) : Labels := fun q => if q = k then some v else none

/-- Map update `m[k] = v`. -/
def Labels.set (m : Labels) (k v : String) : Labels := fun q => if q = k then some v else m q

/-- The two query strings of an SLI (`slo.SLI.ErrorQuery`, `slo.SLI.TotalQuery`). -/
structure SLI where
  ErrorQuery : String
  TotalQuery : String

/-- The fields of `SLO` that the generator reads. -/
structure SLO where
  ID : String
  Service : String
  TimeWindow : Duration
  SLI : SLI
  Labels : Labels

/-- The fields of `rulefmt.Rule` that the generator sets; the others keep their zero value. -/
structure Rule where
  Record : String
  Expr : String
  Labels : Labels

/-- Go `context.Context`, reduced to whether it has been cancelled. -/
structure Context where
  cancelled : Bool

/-- The helpers of the package that `recording_rules.go` calls but does not define. -/
structure Env (AlertGroup : Type) where
  /-- The window collector `getAlertGroupWindows`. -/
  getAlertGroupWindows : AlertGroup → List Duration
  /-- The duration formatter `timeDurationToPromStr`. -/
  timeDurationToPromStr : Duration → String

/-- Modelled from the spec: `mergeLabels`, the label-merge helper, is called by
`recording_rules.go` but defined elsewhere in the package. The spec requires that in
`mergeLabels(slo.Labels, {"window": w})` "the window entry must win", and that the identity
labels are right "regardless of what the SLO's own label map contains": a key-wise merge in
which the later map wins. -/
def mergeLabels (a b : Labels) : Labels := fun k =>
  match b k with
  | some v => some v
  | none => a k

/-! ## The fragment of Go `text/template` that the builder relies on

`template.New("sliExpr").Option("missingkey=error").Parse(text)` followed by
`tpl.Execute(&b, map[string]string{...})`. The model covers literal text and the actions
`{{.name}}`, `{{if .name}}`, `{{else}}` and `{{end}}` (blanks allowed around the words of an
action). Every other action makes `Template.Parse` answer `none`: the model does not decide
such a template, and no property below is drawn from that answer.
-/

namespace Template

/-- The pieces the lexer cuts the input into at the delimiters. -/
inductive Chunk
  | text (s : List Char)
  | action (body : List Char)
  deriving DecidableEq, Repr

/-- The two modes of the lexer: outside an action or inside one; `acc` is what has been
read of the current piece. -/
inductive LexState
  | inText (acc : List Char)
  | inAction (acc : List Char)

/-- Cut the input at the left delimiter `{{` and at the next right delimiter `}}` after
it; `none` is the lexer error "unclosed action". -/
def lexDelims : LexState → List Char → Option (List Chunk)
  | .inText acc, [] => some [.text acc]
  | .inText acc, [c] => some [.text (acc ++ [c])]
  | .inText acc, c :: d :: rest =>
    if c = '{' ∧ d = '{' then (lexDelims (.inAction []) rest).map (Chunk.text acc :: ·)
    else lexDelims (.inText (acc ++ [c])) (d :: rest)
  | .inAction _, [] => none
  | .inAction _, [_] => none
  | .inAction acc, c :: d :: rest =>
    if c = '}' ∧ d = '}' then (lexDelims (.inText []) rest).map (Chunk.action acc :: ·)
    else lexDelims (.inAction (acc ++ [c])) (d :: rest)

/-- The items of the modelled fragment. -/
inductive Token
  | text (s : List Char)
  | field (name : List Char)
  | ifField (name : List Char)
  | elseTok
  | endTok
  deriving DecidableEq, Repr

/-- The characters of a field name: an ASCII letter or `_` first, then ASCII letters,
digits and `_`. -/
def isIdent : List Char → Bool
  | [] => false
  | c :: cs => (c.isAlpha || c = '_') && cs.all (fun x => x.isAlphanum || x = '_')

/-- Remove the blanks at both ends. -/
def trimBlanks (s : List Char) : List Char :=
  ((s.dropWhile (· = ' ')).reverse.dropWhile (· = ' ')).reverse

/-- A field reference `.name`. -/
def fieldName : List Char → Option (List Char)
  | '.' :: n => if isIdent n then some n else none
  | _ => none

/-- The item an action body stands for; `none` when the action is outside the fragment. -/
def classify (body : List Char) : Option Token :=
  match trimBlanks body with
  | ['e', 'n', 'd'] => some .endTok
  | ['e', 'l', 's', 'e'] => some .elseTok
  | 'i' :: 'f' :: ' ' :: rest => (fieldName (rest.dropWhile (· = ' '))).map Token.ifField
  | other => (fieldName other).map Token.field

/-- The items of a chunk list; `none` when some action is outside the fragment. -/
def tokens : List Chunk → Option (List Token)
  | [] => some []
  | .text s :: cs => (tokens cs).map (Token.text s :: ·)
  | .action b :: cs =>
    match classify b with
    | none => none
    | some t => (tokens cs).map (t :: ·)

/-- A parsed template: a list of nodes, each followed by the nodes after it. -/
inductive Tree
  | done
  | text (s : List Char) (next : Tree)
  | field (name : List Char) (next : Tree)
  | ifField (name : List Char) (thenList elseList next : Tree)
  deriving DecidableEq, Repr

/-- Put the nodes of `b` after those of `a`. -/
def Tree.append : Tree → Tree → Tree
  | .done, b => b
  | .text s n, b => .text s (n.append b)
  | .field f n, b => .field f (n.append b)
  | .ifField f t e n, b => .ifField f t e (n.append b)

/-- The errors of the parser that the model decides. -/
inductive ParseError
  | unclosedAction
  | unexpectedEnd
  | unexpectedElse
  | expectedEnd
  | unexpectedEOF
  deriving DecidableEq, Repr

/-- An `if` whose `end` has not been read yet: the list being built around it, the
condition, and the then-branch once `else` has been read. -/
structure Frame where
  outer : Tree
  cond : List Char
  thenList : Option Tree

/-- The parser over the items: `cur` is the list being built, `stack` the open `if`s. -/
def parseTokens : List Token → Tree → List Frame → Except ParseError Tree
  | [], cur, [] => .ok cur
  | [], _, _ :: _ => .error .unexpectedEOF
  | .text s :: ts, cur, stack => parseTokens ts (cur.append (.text s .done)) stack
  | .field n :: ts, cur, stack => parseTokens ts (cur.append (.field n .done)) stack
  | .ifField n :: ts, cur, stack =>
    parseTokens ts .done ({ outer := cur, cond := n, thenList := none } :: stack)
  | .elseTok :: _, _, [] => .error .unexpectedElse
  | .elseTok :: ts, cur, f :: stack =>
    match f.thenList with
    | some _ => .error .expectedEnd
    | none => parseTokens ts .done ({ f with thenList := some cur } :: stack)
  | .endTok :: _, _, [] => .error .unexpectedEnd
  | .endTok :: ts, cur, f :: stack =>
    match f.thenList with
    | none => parseTokens ts (f.outer.append (.ifField f.cond cur .done .done)) stack
    | some t => parseTokens ts (f.outer.append (.ifField f.cond t cur .done)) stack

/-- The method `Parse`: `none` when the text is outside the modelled fragment, otherwise the
tree or the parse error. A `{{` with no `}}` after it is an error in `text/template`
whatever the text before it holds, so it is reported even when an earlier action is outside
the fragment. Where a text has several defects the error named here need not be the one
Go reports first; both are errors of `Parse`. -/
def Parse (text : String) : Option (Except ParseError Tree) :=
  match lexDelims (.inText []) text.data with
  | none => some (.error .unclosedAction)
  | some chunks =>
    match tokens chunks with
    | none => none
    | some toks => some (parseTokens toks .done [])

/-- The error of `Execute` under `missingkey=error`: the map has no entry for the key. -/
inductive ExecError
  | missingKey (name : String)
  deriving DecidableEq, Repr

/-- Walk the tree over the data map, writing after `out`. A field prints the string under
its key; an `if` takes the then-branch when that string is not empty. -/
def exec (data : Labels) : Tree → List Char → Except ExecError (List Char)
  | .done, out => .ok out
  | .text s next, out => exec data next (out ++ s)
  | .field n next, out =>
    match data (String.mk n) with
    | none => .error (.missingKey (String.mk n))
    | some v => exec data next (out ++ v.data)
  | .ifField n t e next, out =>
    match data (String.mk n) with
    | none => .error (.missingKey (String.mk n))
    | some v =>
      match (if v.data = [] then exec data e out else exec data t out) with
      | .error err => .error err
      | .ok out2 => exec data next out2

/-- The method `Execute` into an empty buffer, returning the buffer's content. -/
def Execute (tpl : Tree) (data : Labels) : Except ExecError String :=
  match exec data tpl [] with
  | .error err => .error err
  | .ok out => .ok (String.mk out)

end Template

/-! ## `GenerateSLIRecordingRules` -/

/-- The type `genFunc`: builds the rule of one window or fails with an error of type `E`. -/
abbrev genFunc (E : Type) := SLO → Duration → Except E Rule

/-- The struct `sliRecordingRulesGenerator`. -/
structure sliRecordingRulesGenerator (E : Type) where
  genFunc : genFunc E

/-- The error built by
`fmt.Errorf("could not create %q SLO rule for window %s: %w", slo.ID, window, err)`:
the SLO id, the window and the wrapped builder error. -/
structure RuleError (E : Type) where
  sloID : String
  window : Duration
  cause : E

/-- The result pair `([]rulefmt.Rule, error)`; `none` stands for Go's `nil`. -/
structure GenResult (E : Type) where
  rules : Option (List Rule)
  err : Option (RuleError E)

/-- The map literal `extraLabels` of `GenerateSLIRecordingRules`. -/
def extraLabels (slo : SLO) : Labels :=
  (Labels.single "sloth_slo" slo.ID).set "sloth_service" slo.Service

/-- The statement `rule.Labels = mergeLabels(rule.Labels, extraLabels)`. -/
def addExtraLabels (slo : SLO) (rule : Rule) : Rule :=
  { rule with Labels := mergeLabels rule.Labels (extraLabels slo) }

/-- The `for _, window := range windows` loop, with the slice `rules` built so far. -/
def rulesLoop {E : Type} (s : sliRecordingRulesGenerator E) (slo : SLO) :
    List Duration → List Rule → GenResult E
  | [], rules => { rules := some rules, err := none }
  | window :: rest, rules =>
    match s.genFunc slo window with
    | .error err =>
      { rules := none, err := some { sloID := slo.ID, window := window, cause := err } }
    | .ok rule => rulesLoop s slo rest (rules ++ [addExtraLabels slo rule])

/-- The local `windows` after `append(windows, slo.TimeWindow)`. -/
def ruleWindows {AlertGroup : Type} (env : Env AlertGroup) (slo : SLO) (alerts : AlertGroup) :
    List Duration :=
  env.getAlertGroupWindows alerts ++ [slo.TimeWindow]

/-- The method `GenerateSLIRecordingRules`; the context argument is not read. -/
def GenerateSLIRecordingRules {AlertGroup E : Type} (env : Env AlertGroup)
    (s : sliRecordingRulesGenerator E) (_ctx : Context) (slo : SLO) (alerts : AlertGroup) :
    GenResult E :=
  rulesLoop s slo (ruleWindows env slo alerts) []

/-! ## `defaultSLIRecordGenerator` -/

/-- The constant `tplKeyWindow`. -/
def tplKeyWindow : String := "window"

/-- The constant `sliMetricName`, applied to its one `%s` argument. -/
def sliMetricName (window : String) : String := "slo:sli_error:ratio_rate" ++ window

/-- The errors of `defaultSLIRecordGenerator`. -/
inductive BuildError
  /-- "could not create SLI expression template data: %w". -/
  | createTemplate (cause : Template.ParseError)
  /-- "could not render SLI expression template: %w". -/
  | render (cause : Template.ExecError)
  /-- The template is outside the modelled fragment of `text/template`. -/
  | unmodelled
  deriving DecidableEq, Repr

/-- The local `sliExprTpl`: the two queries put into the raw string
literal that holds `(%s)`, `/` and `(%s)` on lines of their own. -/
def sliExprTpl (slo : SLO) : String :=
  "\n(" ++ slo.SLI.ErrorQuery ++ ")\n/\n(" ++ slo.SLI.TotalQuery ++ ")\n"

/-- The function `defaultSLIRecordGenerator`. A template outside the modelled fragment
gives `unmodelled`, from which nothing is concluded. -/
def defaultSLIRecordGenerator {AlertGroup : Type} (env : Env AlertGroup) (slo : SLO)
    (window : Duration) : Except BuildError Rule :=
  match Template.Parse (sliExprTpl slo) with
  | none => .error .unmodelled
  | some (.error err) => .error (.createTemplate err)
  | some (.ok tpl) =>
    let strWindow := env.timeDurationToPromStr window
    match Template.Execute tpl (Labels.single tplKeyWindow strWindow) with
    | .error err => .error (.render err)
    | .ok b =>
      let ruleLabels := mergeLabels slo.Labels (Labels.single "window" strWindow)
      .ok { Record := sliMetricName strWindow, Expr := b, Labels := ruleLabels }

/-- The package variable `SLIRecordingRulesGenerator`. -/
def SLIRecordingRulesGenerator {AlertGroup : Type} (env : Env AlertGroup) :
    sliRecordingRulesGenerator BuildError :=
  { genFunc := defaultSLIRecordGenerator env }


/-! ## Concrete inputs

An environment and SLOs on which the definitions above are evaluated.
-/

/-- Five minutes, in nanoseconds. -/
def fiveMinutes : Duration := 300000000000

/-- One hour, in nanoseconds. -/
def oneHour : Duration := 3600000000000

/-- 720 hours (thirty days), in nanoseconds. -/
def thirtyDays : Duration := 2592000000000000

/-- One component of a rendered duration: nothing when the count is zero. -/
def unitStr (n : Nat) (u : String) : String := if n = 0 then "" else toString n ++ u

/-- Modelled from the spec: `timeDurationToPromStr`, the duration formatter, is defined
outside `recording_rules.go`. The spec asks for "combinations of `d`/`h`/`m`/`s` with no
leading zeros, canonical unit ordering" (`"5m"`, `"1h"`); whole seconds are rendered, and a
duration below one second as `0s`. -/
def promDuration (d : Duration) : String :=
  let secs := d.toNat / 1000000000
  if secs = 0 then "0s"
  else unitStr (secs / 86400) "d" ++ unitStr (secs % 86400 / 3600) "h" ++
    unitStr (secs % 3600 / 60) "m" ++ unitStr (secs % 60) "s"

/-- Modelled from the spec: `getAlertGroupWindows`, the window collector, is defined outside
`recording_rules.go`. Here an alert group is the list of the windows of its alerts, and the
collector "de-duplicates by value". -/
def collectWindows (alerts : List Duration) : List Duration := alerts.dedup

/-- The environment used for the concrete inputs. -/
def exampleEnv : Env (List Duration) :=
  { getAlertGroupWindows := collectWindows, timeDurationToPromStr := promDuration }

/-- A context that has not been cancelled. -/
def background : Context := { cancelled := false }

/-- The SLO of the spec's concrete scenario. -/
def availabilitySLO : SLO :=
  { ID := "availability", Service := "checkout", TimeWindow := thirtyDays,
    SLI := { ErrorQuery := "http_errors", TotalQuery := "http_total" },
    Labels := Labels.empty }

/-- The rule `defaultSLIRecordGenerator` builds for `availabilitySLO`. -/
def availabilityRule (w : Duration) : Rule :=
  { Record := sliMetricName (promDuration w),
    Expr := "\n(http_errors)\n/\n(http_total)\n",
    Labels := mergeLabels Labels.empty (Labels.single "window" (promDuration w)) }

/-- An SLO whose own labels define `window`, `sloth_slo` and `sloth_service`. -/
def overridingSLO : SLO :=
  { ID := "latency", Service := "cart", TimeWindow := thirtyDays,
    SLI := { ErrorQuery := "slow_requests", TotalQuery := "requests" },
    Labels := ((Labels.single "window" "1y").set "sloth_slo" "mine").set "sloth_service" "ours" }

/-- An SLO whose total window is also a burn-rate window of its alert group. -/
def overlappingSLO : SLO := { availabilitySLO with TimeWindow := fiveMinutes }

/-- A builder that fails on the one-hour window and builds a bare rule otherwise. -/
def failsOnOneHour : sliRecordingRulesGenerator String :=
  { genFunc := fun _ w =>
      if w = oneHour then .error "no data for 1h"
      else .ok { Record := "r", Expr := "e", Labels := Labels.empty } }

/-! ## Queries written as literal text and placeholders

A way to say what a query text is made of, used to state what the builder does with the
placeholders of a query.
-/

namespace Template

/-- Whether the left delimiter `{{` occurs in the text. -/
def hasLeftDelim : List Char → Bool
  | [] => false
  | [_] => false
  | c :: d :: rest => (c = '{' && d = '{') || hasLeftDelim (d :: rest)

/-- Whether the right delimiter `}}` occurs in the text. -/
def hasRightDelim : List Char → Bool
  | [] => false
  | [_] => false
  | c :: d :: rest => (c = '}' && d = '}') || hasRightDelim (d :: rest)

/-- A piece of a query: literal text, or the placeholder `{{.name}}`. -/
inductive Piece
  | lit (s : List Char)
  | ref (name : List Char)
  deriving DecidableEq, Repr

/-- The text a piece is written as. -/
def Piece.source : Piece → List Char
  | .lit s => s
  | .ref n => '{' :: '{' :: '.' :: (n ++ ['}', '}'])

/-- The query text that a list of pieces spells. -/
def sourceOf : List Piece → List Char
  | [] => []
  | p :: ps => p.source ++ sourceOf ps

/-- The text starts with `{`. -/
def startsWithBrace : List Char → Bool
  | '{' :: _ => true
  | _ => false

/-- The text ends with `{`. -/
def endsWithBrace (s : List Char) : Bool := s.getLast? = some '{'

/-- The pieces spell their text without ambiguity: names are identifiers, literal text
holds no `{{`, and no `{{` arises where a literal ends and the next piece begins. -/
def Safe : List Piece → Bool
  | [] => true
  | .ref n :: ps => isIdent n && Safe ps
  | .lit s :: ps =>
    !hasLeftDelim s && !(endsWithBrace s && startsWithBrace (sourceOf ps)) && Safe ps

/-- The text in which every placeholder is replaced by `v` and the literal text is kept. -/
def substOf (v : List Char) : List Piece → List Char
  | [] => []
  | .lit s :: ps => s ++ substOf v ps
  | .ref _ :: ps => v ++ substOf v ps

/-- Every placeholder of the pieces is `{{.window}}`. -/
def onlyWindow (ps : List Piece) : Bool :=
  ps.all fun p =>
    match p with
    | .lit _ => true
    | .ref n => n = "window".data

/-- The name of the first placeholder other than `{{.window}}`, if there is one. -/
def firstForeign : List Piece → Option (List Char)
  | [] => none
  | .lit _ :: ps => firstForeign ps
  | .ref n :: ps => if n = "window".data then firstForeign ps else some n

/-- The chunks the lexer cuts the pieces into, after the text `acc`. -/
def chunksOf (acc : List Char) : List Piece → List Chunk
  | [] => [.text acc]
  | .lit s :: ps => chunksOf (acc ++ s) ps
  | .ref n :: ps => .text acc :: .action ('.' :: n) :: chunksOf [] ps

/-- The items of the pieces, after the text `acc`. -/
def toksOf (acc : List Char) : List Piece → List Token
  | [] => [.text acc]
  | .lit s :: ps => toksOf (acc ++ s) ps
  | .ref n :: ps => .text acc :: .field n :: toksOf [] ps

/-- The tree of the pieces, after the text `acc`. -/
def treeOf (acc : List Char) : List Piece → Tree
  | [] => .text acc .done
  | .lit s :: ps => treeOf (acc ++ s) ps
  | .ref n :: ps => .text acc (.field n (treeOf [] ps))

end Template

/-- The pieces of the template text that `defaultSLIRecordGenerator` assembles from the
pieces of the error query and of the total query. -/
def assembledPieces (pe pt : List Template.Piece) : List Template.Piece :=
  .lit "\n(".data :: (pe ++ .lit ")\n/\n(".data :: (pt ++ [.lit ")\n".data]))

/-- An SLO whose queries use the window placeholder. -/
def rateSLO : SLO :=
  { ID := "errors", Service := "api", TimeWindow := thirtyDays,
    SLI := { ErrorQuery := "rate(errors[{{.window}}])", TotalQuery := "rate(total[{{.window}}])" },
    Labels := Labels.empty }

/-- The SLO of the spec's expression example: queries without placeholder. -/
def plainSLO : SLO :=
  { ID := "plain", Service := "api", TimeWindow := thirtyDays,
    SLI := { ErrorQuery := "errors\x7bjob=\"x\"\x7d", TotalQuery := "total\x7bjob=\"x\"\x7d" },
    Labels := Labels.empty }

/-- An SLO with a query that names the placeholder `foo` in a branch that is never taken. -/
def guardedSLO : SLO :=
  { ID := "guarded", Service := "api", TimeWindow := thirtyDays,
    SLI := { ErrorQuery := "{{if .window}}errors{{else}}{{.foo}}{{end}}", TotalQuery := "total" },
    Labels := Labels.empty }

/-- An SLO with a query that names the placeholder `foo`. -/
def foreignSLO : SLO :=
  { ID := "foreign", Service := "api", TimeWindow := thirtyDays,
    SLI := { ErrorQuery := "errors\x7bjob=\"\x7b\x7b.foo\x7d\x7d\"\x7d", TotalQuery := "total[\x7b\x7b.window\x7d\x7d]" },
    Labels := Labels.empty }

/-- An SLO whose queries are templates only when put together. -/
def splitSLO : SLO :=
  { ID := "split", Service := "api", TimeWindow := thirtyDays,
    SLI := { ErrorQuery := "{{if .window}}a", TotalQuery := "b{{end}}" },
    Labels := Labels.empty }

/-- An SLO whose total query leaves an action unclosed. -/
def unclosedSLO : SLO :=
  { ID := "unclosed", Service := "api", TimeWindow := thirtyDays,
    SLI := { ErrorQuery := "errors", TotalQuery := "total[\x7b\x7b.window]" },
    Labels := Labels.empty }

/-- A context that has been cancelled before the call. -/
def cancelledContext : Context := { cancelled := true }

/-- An SLO with a label of its own, `team`. -/
def teamSLO : SLO :=
  { ID := "availability", Service := "checkout", TimeWindow := thirtyDays,
    SLI := { ErrorQuery := "http_errors", TotalQuery := "http_total" },
    Labels := Labels.single "team" "payments" }

/-! ## Properties -/

/-! ### The loop of `GenerateSLIRecordingRules` -/

/-- The value of the injected labels at their two keys and elsewhere. -/
theorem extraLabels_apply (slo : SLO) (k : String) :
    extraLabels slo k =
      if k = "sloth_service" then some slo.Service
      else if k = "sloth_slo" then some slo.ID else none := by
  simp [extraLabels, Labels.set, Labels.single]

/-- The labels of a rule after the identity labels are merged in. -/
theorem addExtraLabels_labels (slo : SLO) (r : Rule) (k : String) :
    (addExtraLabels slo r).Labels k =
      if k = "sloth_service" then some slo.Service
      else if k = "sloth_slo" then some slo.ID else r.Labels k := by
  simp only [addExtraLabels, mergeLabels, extraLabels_apply]
  split_ifs <;> rfl

/-- Merging the identity labels leaves `Record` and `Expr` alone. -/
theorem addExtraLabels_record (slo : SLO) (r : Rule) :
    (addExtraLabels slo r).Record = r.Record ∧ (addExtraLabels slo r).Expr = r.Expr :=
  ⟨rfl, rfl⟩

/-- What the loop returns: either every window is built and the rules follow the windows
in order, or the first window whose build fails decides the result. -/
theorem rulesLoop_spec {E : Type} (s : sliRecordingRulesGenerator E) (slo : SLO)
    (ws : List Duration) (acc : List Rule) :
    (∃ built,
        List.Forall₂ (fun w r => ∃ r0, s.genFunc slo w = .ok r0 ∧ r = addExtraLabels slo r0)
          ws built ∧
        (∀ w ∈ ws, ∃ r0, s.genFunc slo w = .ok r0) ∧
        rulesLoop s slo ws acc = { rules := some (acc ++ built), err := none }) ∨
    (∃ pre w post e, ws = pre ++ w :: post ∧ (∀ x ∈ pre, ∃ r, s.genFunc slo x = .ok r) ∧
        s.genFunc slo w = .error e ∧
        rulesLoop s slo ws acc =
          { rules := none, err := some { sloID := slo.ID, window := w, cause := e } }) := by
  induction ws generalizing acc with
  | nil => left; exact ⟨[], List.Forall₂.nil, by simp, by simp [rulesLoop]⟩
  | cons w ws ih =>
    cases hg : s.genFunc slo w with
    | error e =>
      right
      exact ⟨[], w, ws, e, rfl, by simp, hg, by simp [rulesLoop, hg]⟩
    | ok r0 =>
      rcases ih (acc ++ [addExtraLabels slo r0]) with
        ⟨built, hb, hall, hr⟩ | ⟨pre, w', post, e, hws, hpre, he, hr⟩
      · left
        refine ⟨addExtraLabels slo r0 :: built, List.Forall₂.cons ⟨r0, hg, rfl⟩ hb, ?_, ?_⟩
        · intro x hx
          rcases List.mem_cons.mp hx with rfl | hx
          · exact ⟨r0, hg⟩
          · exact hall x hx
        · simp [rulesLoop, hg, hr]
      · right
        refine ⟨w :: pre, w', post, e, by simp [hws], ?_, he, by simp [rulesLoop, hg, hr]⟩
        intro x hx
        rcases List.mem_cons.mp hx with rfl | hx
        · exact ⟨r0, hg⟩
        · exact hpre x hx

/-- When every window is built, the loop returns the built rules in window order. -/
theorem rulesLoop_ok {E : Type} (s : sliRecordingRulesGenerator E) (slo : SLO)
    (build : Duration → Rule) (ws : List Duration) (acc : List Rule)
    (h : ∀ w ∈ ws, s.genFunc slo w = .ok (build w)) :
    rulesLoop s slo ws acc =
      { rules := some (acc ++ ws.map (fun w => addExtraLabels slo (build w))), err := none } := by
  induction ws generalizing acc with
  | nil => simp [rulesLoop]
  | cons w ws ih =>
    have hw := h w (List.mem_cons_self w ws)
    have hrest : ∀ x ∈ ws, s.genFunc slo x = .ok (build x) :=
      fun x hx => h x (List.mem_cons_of_mem w hx)
    simp [rulesLoop, hw, ih _ hrest]

/-- Related lists: every element on the right has a partner on the left. -/
theorem forall₂_mem_right {α β : Type} {R : α → β → Prop} {l : List α} {m : List β}
    (h : List.Forall₂ R l m) : ∀ b ∈ m, ∃ a ∈ l, R a b := by
  induction h with
  | nil => intro b hb; cases hb
  | cons hab _ ih =>
    intro b hb
    rcases List.mem_cons.mp hb with rfl | hb
    · exact ⟨_, List.mem_cons_self _ _, hab⟩
    · obtain ⟨a, ha, hr⟩ := ih b hb
      exact ⟨a, List.mem_cons_of_mem _ ha, hr⟩

/-- A call without error returns a rule list that follows the windows one by one. -/
theorem generate_success {AlertGroup E : Type} (env : Env AlertGroup)
    (s : sliRecordingRulesGenerator E) (ctx : Context) (slo : SLO) (alerts : AlertGroup)
    (h : (GenerateSLIRecordingRules env s ctx slo alerts).err = none) :
    ∃ rules, GenerateSLIRecordingRules env s ctx slo alerts = { rules := some rules, err := none } ∧
      List.Forall₂ (fun w r => ∃ r0, s.genFunc slo w = .ok r0 ∧ r = addExtraLabels slo r0)
        (ruleWindows env slo alerts) rules := by
  unfold GenerateSLIRecordingRules at h ⊢
  rcases rulesLoop_spec s slo (ruleWindows env slo alerts) [] with
    ⟨built, hb, _, hr⟩ | ⟨pre, w, post, e, _, _, _, hr⟩
  · exact ⟨built, by simpa using hr, hb⟩
  · rw [hr] at h; cases h

/-! ### Shape of the rule built by `defaultSLIRecordGenerator` -/

/-- A rule built by the default builder has the record name and the labels computed from
the rendered window. -/
theorem default_ok_shape {AlertGroup : Type} (env : Env AlertGroup) (slo : SLO)
    (w : Duration) (r : Rule) (h : defaultSLIRecordGenerator env slo w = .ok r) :
    r.Record = sliMetricName (env.timeDurationToPromStr w) ∧
      r.Labels = mergeLabels slo.Labels (Labels.single "window" (env.timeDurationToPromStr w)) := by
  unfold defaultSLIRecordGenerator at h
  split at h
  · cases h
  · cases h
  · simp only at h
    split at h
    · cases h
    · cases h
      exact ⟨rfl, rfl⟩

/-- The `window` label of a rule built by the default builder is the rendered window. -/
theorem default_ok_window {AlertGroup : Type} (env : Env AlertGroup) (slo : SLO)
    (w : Duration) (r : Rule) (h : defaultSLIRecordGenerator env slo w = .ok r) :
    r.Labels "window" = some (env.timeDurationToPromStr w) := by
  rw [(default_ok_shape env slo w r h).2]
  simp [mergeLabels, Labels.single]

/-! ### Properties of `GenerateSLIRecordingRules` -/

/-- C1: when `GenerateSLIRecordingRules` with the default builder returns without error,
every returned rule carries `sloth_slo = slo.ID` and `sloth_service = slo.Service`,
whatever `slo.Labels` holds. -/
theorem identity_labels_on_every_rule {AlertGroup : Type} (env : Env AlertGroup)
    (ctx : Context) (slo : SLO) (alerts : AlertGroup)
    (h : (GenerateSLIRecordingRules env (SLIRecordingRulesGenerator env) ctx slo alerts).err
      = none) :
    ∃ rules,
      (GenerateSLIRecordingRules env (SLIRecordingRulesGenerator env) ctx slo alerts).rules
        = some rules ∧
      ∀ r ∈ rules, r.Labels "sloth_slo" = some slo.ID ∧
        r.Labels "sloth_service" = some slo.Service := by
  obtain ⟨rules, hres, hrel⟩ := generate_success env _ ctx slo alerts h
  refine ⟨rules, by rw [hres], ?_⟩
  intro r hr
  obtain ⟨w, _, r0, _, rfl⟩ := forall₂_mem_right hrel r hr
  simp [addExtraLabels_labels]

/-- C1, evaluated: an SLO whose own labels set `sloth_slo` and `sloth_service` to other
values still gets the identity labels of the SLO on its rules. -/
theorem identity_labels_on_every_rule_witness :
    (GenerateSLIRecordingRules exampleEnv (SLIRecordingRulesGenerator exampleEnv) background
        overridingSLO [fiveMinutes]).err = none ∧
    overridingSLO.Labels "sloth_slo" = some "mine" ∧
    ∃ rules,
      (GenerateSLIRecordingRules exampleEnv (SLIRecordingRulesGenerator exampleEnv) background
        overridingSLO [fiveMinutes]).rules = some rules ∧
      ∀ r ∈ rules, r.Labels "sloth_slo" = some "latency" ∧
        r.Labels "sloth_service" = some "cart" :=
  ⟨by rfl, by rfl,
    identity_labels_on_every_rule exampleEnv background overridingSLO [fiveMinutes] (by rfl)⟩

/-- A call that returns a rule list returns no error, and the list follows the windows. -/
theorem generate_rules {AlertGroup E : Type} (env : Env AlertGroup)
    (s : sliRecordingRulesGenerator E) (ctx : Context) (slo : SLO) (alerts : AlertGroup)
    (rules : List Rule)
    (h : (GenerateSLIRecordingRules env s ctx slo alerts).rules = some rules) :
    (GenerateSLIRecordingRules env s ctx slo alerts).err = none ∧
      List.Forall₂ (fun w r => ∃ r0, s.genFunc slo w = .ok r0 ∧ r = addExtraLabels slo r0)
        (ruleWindows env slo alerts) rules := by
  unfold GenerateSLIRecordingRules at h ⊢
  rcases rulesLoop_spec s slo (ruleWindows env slo alerts) [] with
    ⟨built, hb, _, hr⟩ | ⟨pre, w, post, e, _, _, _, hr⟩
  · rw [hr] at h ⊢
    simp only [List.nil_append, Option.some.injEq] at h
    subst h
    exact ⟨rfl, hb⟩
  · rw [hr] at h; cases h

/-- C2: a rule built by `defaultSLIRecordGenerator` for the window `w` has the label
`window` equal to the rendered window and the record name `slo:sli_error:ratio_rate`
followed by that same string, whatever `slo.Labels` holds under `window`; and every rule
returned by `GenerateSLIRecordingRules` with the default builder still has a record name
that ends in its `window` label. -/
theorem record_suffix_equals_window_label {AlertGroup : Type} (env : Env AlertGroup)
    (ctx : Context) (slo : SLO) (alerts : AlertGroup) (w : Duration) (r : Rule)
    (h : defaultSLIRecordGenerator env slo w = .ok r) :
    r.Labels "window" = some (env.timeDurationToPromStr w) ∧
    r.Record = "slo:sli_error:ratio_rate" ++ env.timeDurationToPromStr w ∧
    ∀ rules,
      (GenerateSLIRecordingRules env (SLIRecordingRulesGenerator env) ctx slo alerts).rules
        = some rules →
      ∀ r' ∈ rules, ∃ w' ∈ ruleWindows env slo alerts,
        r'.Labels "window" = some (env.timeDurationToPromStr w') ∧
        r'.Record = "slo:sli_error:ratio_rate" ++ env.timeDurationToPromStr w' := by
  refine ⟨default_ok_window env slo w r h, (default_ok_shape env slo w r h).1, ?_⟩
  intro rules hrules r' hr'
  obtain ⟨w', hw', r0, h0, rfl⟩ :=
    forall₂_mem_right (generate_rules env _ ctx slo alerts rules hrules).2 r' hr'
  refine ⟨w', hw', ?_, ?_⟩
  · rw [addExtraLabels_labels, if_neg (by decide), if_neg (by decide)]
    exact default_ok_window env slo w' r0 h0
  · exact (default_ok_shape env slo w' r0 h0).1

/-- C2, evaluated: the SLO's own `window` label `1y` loses to the rendered window `5m`,
which is also the suffix of the record name. -/
theorem record_suffix_equals_window_label_witness :
    overridingSLO.Labels "window" = some "1y" ∧
    defaultSLIRecordGenerator exampleEnv overridingSLO fiveMinutes = .ok
      { Record := "slo:sli_error:ratio_rate5m", Expr := "\n(slow_requests)\n/\n(requests)\n",
        Labels := mergeLabels overridingSLO.Labels (Labels.single "window" "5m") } ∧
    mergeLabels overridingSLO.Labels (Labels.single "window" "5m") "window" = some "5m" ∧
    ∀ rules,
      (GenerateSLIRecordingRules exampleEnv (SLIRecordingRulesGenerator exampleEnv) background
        overridingSLO [oneHour]).rules = some rules →
      ∀ r' ∈ rules, ∃ w' ∈ ruleWindows exampleEnv overridingSLO [oneHour],
        r'.Labels "window" = some (promDuration w') ∧
        r'.Record = "slo:sli_error:ratio_rate" ++ promDuration w' :=
  have h := record_suffix_equals_window_label exampleEnv background overridingSLO [oneHour]
    fiveMinutes
    { Record := "slo:sli_error:ratio_rate5m", Expr := "\n(slow_requests)\n/\n(requests)\n",
      Labels := mergeLabels overridingSLO.Labels (Labels.single "window" "5m") } (by rfl)
  ⟨by rfl, by rfl, by rfl, h.2.2⟩

/-- C3: if the builder succeeds on every window, `GenerateSLIRecordingRules` returns, in
order, the builder's rule (with the identity labels merged in) for each collected window
and then the one for `slo.TimeWindow`, appended whether or not it is among the collected
windows: one rule more than there are collected windows. -/
theorem rules_follow_windows_then_time_window {AlertGroup E : Type} (env : Env AlertGroup)
    (s : sliRecordingRulesGenerator E) (ctx : Context) (slo : SLO) (alerts : AlertGroup)
    (build : Duration → Rule)
    (h : ∀ w ∈ ruleWindows env slo alerts, s.genFunc slo w = .ok (build w)) :
    GenerateSLIRecordingRules env s ctx slo alerts =
      { rules := some ((env.getAlertGroupWindows alerts).map
            (fun w => addExtraLabels slo (build w)) ++
          [addExtraLabels slo (build slo.TimeWindow)]),
        err := none } ∧
    ((GenerateSLIRecordingRules env s ctx slo alerts).rules.map List.length
      = some ((env.getAlertGroupWindows alerts).length + 1)) := by
  have hres := rulesLoop_ok s slo build (ruleWindows env slo alerts) [] h
  unfold GenerateSLIRecordingRules
  rw [hres]
  simp [ruleWindows]

/-- C3, evaluated on the spec's scenario: the alert window `5m` and the total window
`720h` give exactly two rules, the one for `5m` first. -/
theorem rules_follow_windows_then_time_window_witness :
    (∀ w ∈ ruleWindows exampleEnv availabilitySLO [fiveMinutes],
      defaultSLIRecordGenerator exampleEnv availabilitySLO w = .ok (availabilityRule w)) ∧
    GenerateSLIRecordingRules exampleEnv (SLIRecordingRulesGenerator exampleEnv) background
        availabilitySLO [fiveMinutes] =
      { rules := some [addExtraLabels availabilitySLO (availabilityRule fiveMinutes),
          addExtraLabels availabilitySLO (availabilityRule thirtyDays)],
        err := none } ∧
    (availabilityRule fiveMinutes).Record = "slo:sli_error:ratio_rate5m" ∧
    (availabilityRule thirtyDays).Record = "slo:sli_error:ratio_rate30d" :=
  have hb : ∀ w ∈ ruleWindows exampleEnv availabilitySLO [fiveMinutes],
      defaultSLIRecordGenerator exampleEnv availabilitySLO w = .ok (availabilityRule w) := by
    intro w hw
    have hw' : w = fiveMinutes ∨ w = thirtyDays := by
      simpa [ruleWindows, exampleEnv, collectWindows, availabilitySLO] using hw
    rcases hw' with rfl | rfl <;> rfl
  ⟨hb,
    (rules_follow_windows_then_time_window exampleEnv (SLIRecordingRulesGenerator exampleEnv)
      background availabilitySLO [fiveMinutes] availabilityRule hb).1,
    by rfl, by rfl⟩

/-- C5: for every builder, `GenerateSLIRecordingRules` returns an error exactly when the
builder fails on some window of `getAlertGroupWindows(alerts) ++ [slo.TimeWindow]`; the
rule list is then nil, and the error carries `slo.ID`, the first failing window of the
sequence and the builder's error for it. -/
theorem error_iff_some_window_fails {AlertGroup E : Type} (env : Env AlertGroup)
    (s : sliRecordingRulesGenerator E) (ctx : Context) (slo : SLO) (alerts : AlertGroup) :
    ((GenerateSLIRecordingRules env s ctx slo alerts).err ≠ none ↔
      ∃ w ∈ env.getAlertGroupWindows alerts ++ [slo.TimeWindow],
        ∃ e, s.genFunc slo w = .error e) ∧
    ((GenerateSLIRecordingRules env s ctx slo alerts).err ≠ none →
      (GenerateSLIRecordingRules env s ctx slo alerts).rules = none ∧
      ∃ pre w post e,
        env.getAlertGroupWindows alerts ++ [slo.TimeWindow] = pre ++ w :: post ∧
        (∀ x ∈ pre, ∃ r, s.genFunc slo x = .ok r) ∧
        s.genFunc slo w = .error e ∧
        (GenerateSLIRecordingRules env s ctx slo alerts).err =
          some { sloID := slo.ID, window := w, cause := e }) := by
  unfold GenerateSLIRecordingRules
  rcases rulesLoop_spec s slo (ruleWindows env slo alerts) [] with
    ⟨built, _, hall, hr⟩ | ⟨pre, w, post, e, hws, hpre, he, hr⟩
  · rw [hr]
    refine ⟨⟨fun h => absurd rfl h, ?_⟩, fun h => absurd rfl h⟩
    rintro ⟨w, hw, e, he⟩
    obtain ⟨r0, h0⟩ := hall w hw
    rw [h0] at he
    cases he
  · rw [hr]
    refine ⟨⟨fun _ => ⟨w, ?_, e, he⟩, fun _ => by simp⟩, fun _ => ⟨rfl, pre, w, post, e, hws, hpre, he, rfl⟩⟩
    have : w ∈ ruleWindows env slo alerts := by rw [hws]; simp
    exact this

/-- C5, evaluated: with the windows `5m`, `1h` and the total window, a builder that fails
on `1h` makes the call fail on `1h` although `5m` was built before: no rules, and an
error naming the SLO and `1h`. -/
theorem error_iff_some_window_fails_witness :
    GenerateSLIRecordingRules exampleEnv failsOnOneHour background availabilitySLO
        [fiveMinutes, oneHour] =
      { rules := none,
        err := some { sloID := "availability", window := oneHour, cause := "no data for 1h" } } ∧
    (GenerateSLIRecordingRules exampleEnv failsOnOneHour background availabilitySLO
        [fiveMinutes, oneHour]).rules = none :=
  have herr : (GenerateSLIRecordingRules exampleEnv failsOnOneHour background availabilitySLO
      [fiveMinutes, oneHour]).err
      = some { sloID := "availability", window := oneHour, cause := "no data for 1h" } := by
    rfl
  ⟨by rfl,
    ((error_iff_some_window_fails exampleEnv failsOnOneHour background availabilitySLO
      [fiveMinutes, oneHour]).2 (by rw [herr]; simp)).1⟩

/-- C9, refuted: the rule built for `overridingSLO` carries the SLO's own labels
`sloth_slo = mine` and `sloth_service = ours`, and the rule returned by
`GenerateSLIRecordingRules` carries the injected `latency` and `cart` instead. -/
theorem own_identity_labels_overridden :
    ∃ r0 r,
      defaultSLIRecordGenerator exampleEnv overridingSLO thirtyDays = .ok r0 ∧
      r0.Labels "sloth_slo" = some "mine" ∧ r0.Labels "sloth_service" = some "ours" ∧
      (GenerateSLIRecordingRules exampleEnv (SLIRecordingRulesGenerator exampleEnv) background
        overridingSLO []).rules = some [r] ∧
      r = addExtraLabels overridingSLO r0 ∧
      r.Labels "sloth_slo" = some "latency" ∧ r.Labels "sloth_service" = some "cart" ∧
      r.Labels "sloth_slo" ≠ r0.Labels "sloth_slo" ∧
      r.Labels "sloth_service" ≠ r0.Labels "sloth_service" :=
  ⟨{ Record := "slo:sli_error:ratio_rate30d", Expr := "\n(slow_requests)\n/\n(requests)\n",
     Labels := mergeLabels overridingSLO.Labels (Labels.single "window" "30d") },
   addExtraLabels overridingSLO
    { Record := "slo:sli_error:ratio_rate30d", Expr := "\n(slow_requests)\n/\n(requests)\n",
      Labels := mergeLabels overridingSLO.Labels (Labels.single "window" "30d") },
   by rfl, by rfl, by rfl, by rfl, rfl, by rfl, by rfl, by decide, by decide⟩

/-- C9, amended: in `GenerateSLIRecordingRules` the injected identity labels take
precedence over the rule's own labels. Every returned rule is the builder's rule for its
window with `sloth_slo = slo.ID` and `sloth_service = slo.Service`, also when the built
rule carried other values under these keys; under every other key the rule's own label
is kept. -/
theorem injected_identity_labels_win {AlertGroup E : Type} (env : Env AlertGroup)
    (s : sliRecordingRulesGenerator E) (ctx : Context) (slo : SLO) (alerts : AlertGroup)
    (rules : List Rule)
    (h : (GenerateSLIRecordingRules env s ctx slo alerts).rules = some rules) :
    List.Forall₂
      (fun w r => ∃ r0, s.genFunc slo w = .ok r0 ∧
        r.Labels "sloth_slo" = some slo.ID ∧ r.Labels "sloth_service" = some slo.Service ∧
        ∀ k, k ≠ "sloth_slo" → k ≠ "sloth_service" → r.Labels k = r0.Labels k)
      (env.getAlertGroupWindows alerts ++ [slo.TimeWindow]) rules := by
  have hrel := (generate_rules env s ctx slo alerts rules h).2
  refine List.Forall₂.imp ?_ hrel
  rintro w r ⟨r0, h0, rfl⟩
  refine ⟨r0, h0, by simp [addExtraLabels_labels], by simp [addExtraLabels_labels], ?_⟩
  intro k h1 h2
  rw [addExtraLabels_labels, if_neg h2, if_neg h1]

/-- C9 amended, evaluated on `overridingSLO`. -/
theorem injected_identity_labels_win_witness :
    (GenerateSLIRecordingRules exampleEnv (SLIRecordingRulesGenerator exampleEnv) background
        overridingSLO []).rules
      = some [addExtraLabels overridingSLO
          { Record := "slo:sli_error:ratio_rate30d",
            Expr := "\n(slow_requests)\n/\n(requests)\n",
            Labels := mergeLabels overridingSLO.Labels (Labels.single "window" "30d") }] ∧
    List.Forall₂
      (fun w r => ∃ r0, defaultSLIRecordGenerator exampleEnv overridingSLO w = .ok r0 ∧
        r.Labels "sloth_slo" = some "latency" ∧ r.Labels "sloth_service" = some "cart" ∧
        ∀ k, k ≠ "sloth_slo" → k ≠ "sloth_service" → r.Labels k = r0.Labels k)
      [thirtyDays]
      [addExtraLabels overridingSLO
          { Record := "slo:sli_error:ratio_rate30d",
            Expr := "\n(slow_requests)\n/\n(requests)\n",
            Labels := mergeLabels overridingSLO.Labels (Labels.single "window" "30d") }] :=
  ⟨by rfl,
    injected_identity_labels_win exampleEnv (SLIRecordingRulesGenerator exampleEnv) background
      overridingSLO [] _ (by rfl)⟩

/-- Appending to a fixed string is injective. -/
theorem string_append_left_cancel (p a b : String) (h : p ++ a = p ++ b) : a = b := by
  have hd := congrArg String.data h
  simp only [String.data_append] at hd
  exact String.ext (List.append_cancel_left hd)

/-- Related lists whose relation fixes a projection have equal projections. -/
theorem forall₂_map_eq {α β γ : Type} {R : α → β → Prop} (f : β → γ) (g : α → γ)
    (hR : ∀ a b, R a b → f b = g a) {l : List α} {m : List β} (h : List.Forall₂ R l m) :
    m.map f = l.map g := by
  induction h with
  | nil => rfl
  | cons hab _ ih => simp [hR _ _ hab, ih]

/-- C4, refuted: the collector returns the duplicate-free list `[5m]`, the SLO's total
window is `5m` as well, and the call returns two rules, both built for `5m`, while the
union of the windows has one element. -/
theorem duplicate_rule_for_repeated_window :
    (exampleEnv.getAlertGroupWindows [fiveMinutes]).Nodup ∧
    (GenerateSLIRecordingRules exampleEnv (SLIRecordingRulesGenerator exampleEnv) background
        overlappingSLO [fiveMinutes]) =
      { rules := some [addExtraLabels overlappingSLO (availabilityRule fiveMinutes),
          addExtraLabels overlappingSLO (availabilityRule fiveMinutes)],
        err := none } ∧
    (exampleEnv.getAlertGroupWindows [fiveMinutes] ++ [overlappingSLO.TimeWindow]).dedup.length
      = 1 ∧
    [addExtraLabels overlappingSLO (availabilityRule fiveMinutes),
      addExtraLabels overlappingSLO (availabilityRule fiveMinutes)].length ≠
    (exampleEnv.getAlertGroupWindows [fiveMinutes] ++ [overlappingSLO.TimeWindow]).dedup.length :=
  ⟨by decide, by rfl, by decide, by decide⟩

/-- C4, amended: when the collector's list is duplicate-free and does not contain
`slo.TimeWindow`, a successful call returns exactly one rule per distinct window of the
union: as many rules as distinct windows, the i-th rule built for the i-th window, and no
window occurring twice. With the default builder and a formatter that renders distinct
windows differently, no two returned rules share a record name or a `window` label. -/
theorem one_rule_per_window_when_time_window_is_new {AlertGroup E : Type}
    (env : Env AlertGroup) (s : sliRecordingRulesGenerator E) (ctx : Context) (slo : SLO)
    (alerts : AlertGroup) (rules : List Rule)
    (hnodup : (env.getAlertGroupWindows alerts).Nodup)
    (hnew : slo.TimeWindow ∉ env.getAlertGroupWindows alerts)
    (h : (GenerateSLIRecordingRules env s ctx slo alerts).rules = some rules) :
    rules.length = (env.getAlertGroupWindows alerts ++ [slo.TimeWindow]).dedup.length ∧
    (env.getAlertGroupWindows alerts ++ [slo.TimeWindow]).Nodup ∧
    List.Forall₂ (fun w r => ∃ r0, s.genFunc slo w = .ok r0 ∧ r = addExtraLabels slo r0)
      (env.getAlertGroupWindows alerts ++ [slo.TimeWindow]) rules ∧
    ∀ rules',
      (GenerateSLIRecordingRules env (SLIRecordingRulesGenerator env) ctx slo alerts).rules
        = some rules' →
      Function.Injective env.timeDurationToPromStr →
      (rules'.map Rule.Record).Nodup ∧ (rules'.map (fun r => r.Labels "window")).Nodup := by
  have hnd : (env.getAlertGroupWindows alerts ++ [slo.TimeWindow]).Nodup := by
    rw [List.nodup_append]
    refine ⟨hnodup, List.nodup_singleton _, ?_⟩
    intro a ha hb
    rw [List.mem_singleton] at hb
    exact hnew (hb ▸ ha)
  have hrel := (generate_rules env s ctx slo alerts rules h).2
  refine ⟨?_, hnd, hrel, ?_⟩
  · rw [hnd.dedup]
    exact hrel.length_eq.symm
  · intro rules' h' hinj
    have hrel' := (generate_rules env _ ctx slo alerts rules' h').2
    have hrec : rules'.map Rule.Record =
        (ruleWindows env slo alerts).map
          (fun w => "slo:sli_error:ratio_rate" ++ env.timeDurationToPromStr w) := by
      refine forall₂_map_eq _ _ ?_ hrel'
      rintro w r ⟨r0, h0, rfl⟩
      exact (default_ok_shape env slo w r0 h0).1
    have hlab : rules'.map (fun r => r.Labels "window") =
        (ruleWindows env slo alerts).map (fun w => some (env.timeDurationToPromStr w)) := by
      refine forall₂_map_eq _ _ ?_ hrel'
      rintro w r ⟨r0, h0, rfl⟩
      show (addExtraLabels slo r0).Labels "window" = _
      rw [addExtraLabels_labels, if_neg (by decide), if_neg (by decide)]
      exact default_ok_window env slo w r0 h0
    rw [hrec, hlab]
    constructor
    · refine List.Nodup.map ?_ hnd
      intro a b hab
      exact hinj (string_append_left_cancel _ _ _ hab)
    · refine List.Nodup.map ?_ hnd
      intro a b hab
      exact hinj (Option.some.inj hab)

/-- C4 amended, evaluated on the spec's scenario: the windows `5m` and `720h` are
distinct and two rules are returned. -/
theorem one_rule_per_window_when_time_window_is_new_witness :
    (exampleEnv.getAlertGroupWindows [fiveMinutes]).Nodup ∧
    availabilitySLO.TimeWindow ∉ exampleEnv.getAlertGroupWindows [fiveMinutes] ∧
    (GenerateSLIRecordingRules exampleEnv (SLIRecordingRulesGenerator exampleEnv) background
        availabilitySLO [fiveMinutes]).rules =
      some [addExtraLabels availabilitySLO (availabilityRule fiveMinutes),
        addExtraLabels availabilitySLO (availabilityRule thirtyDays)] ∧
    [addExtraLabels availabilitySLO (availabilityRule fiveMinutes),
        addExtraLabels availabilitySLO (availabilityRule thirtyDays)].length =
      (exampleEnv.getAlertGroupWindows [fiveMinutes] ++ [availabilitySLO.TimeWindow]).dedup.length :=
  ⟨by decide, by decide, by rfl,
    (one_rule_per_window_when_time_window_is_new exampleEnv
      (SLIRecordingRulesGenerator exampleEnv) background availabilitySLO [fiveMinutes] _
      (by decide) (by decide) (by rfl)).1⟩

namespace Template

/-! ### The lexer on literal text and on a placeholder -/

theorem lexDelims_lit (s rest acc : List Char) (h1 : hasLeftDelim s = false)
    (h2 : (endsWithBrace s && startsWithBrace rest) = false) :
    lexDelims (.inText acc) (s ++ rest) = lexDelims (.inText (acc ++ s)) rest := by
  induction s generalizing acc with
  | nil => simp
  | cons c s ih =>
    cases s with
    | nil =>
      cases rest with
      | nil => simp [lexDelims]
      | cons d r =>
        have hne : ¬ (c = '{' ∧ d = '{') := by
          rintro ⟨rfl, rfl⟩
          simp [endsWithBrace, startsWithBrace] at h2
        simp [lexDelims, hne]
    | cons c' s' =>
      simp only [hasLeftDelim, Bool.or_eq_false_iff, Bool.and_eq_false_iff,
        decide_eq_false_iff_not] at h1
      have hne : ¬ (c = '{' ∧ c' = '{') := by
        rintro ⟨h, h'⟩
        rcases h1.1 with h1 | h1
        · exact h1 h
        · exact h1 h'
      have h2' : (endsWithBrace (c' :: s') && startsWithBrace rest) = false := by
        simpa [endsWithBrace] using h2
      have := ih (acc ++ [c]) h1.2 h2'
      simp only [List.cons_append] at this ⊢
      rw [lexDelims]
      simp only [hne, if_false]
      simpa using this

end Template

namespace Template

/-- Inside an action the lexer reads up to the first `}}`. -/
theorem lexDelims_action (b rest acc : List Char) (hb : ∀ c ∈ b, c ≠ '}') :
    lexDelims (.inAction acc) (b ++ '}' :: '}' :: rest) =
      (lexDelims (.inText []) rest).map (Chunk.action (acc ++ b) :: ·) := by
  induction b generalizing acc with
  | nil => simp [lexDelims]
  | cons c b ih =>
    have hc : c ≠ '}' := hb c (List.mem_cons_self c b)
    have hb' : ∀ x ∈ b, x ≠ '}' := fun x hx => hb x (List.mem_cons_of_mem c hx)
    have := ih (acc ++ [c]) hb'
    cases b with
    | nil =>
      simp only [List.cons_append, List.nil_append] at this ⊢
      rw [lexDelims]
      simp only [hc, false_and, if_false]
      simpa using this
    | cons d b' =>
      simp only [List.cons_append] at this ⊢
      rw [lexDelims]
      simp only [hc, false_and, if_false]
      simpa using this

/-- The characters of an identifier are neither `}` nor blanks. -/
theorem isIdent_chars (n : List Char) (h : isIdent n = true) :
    n ≠ [] ∧ ∀ c ∈ n, c ≠ '}' ∧ c ≠ ' ' := by
  cases n with
  | nil => simp [isIdent] at h
  | cons c cs =>
    simp only [isIdent, Bool.and_eq_true, Bool.or_eq_true, decide_eq_true_eq,
      List.all_eq_true] at h
    refine ⟨by simp, ?_⟩
    intro x hx
    rcases List.mem_cons.mp hx with rfl | hx
    · have h1 := h.1
      constructor <;> rintro rfl <;> revert h1 <;> decide
    · have := h.2 x hx
      constructor <;> rintro rfl <;> revert this <;> decide

/-- The lexer on a placeholder `{{.name}}`. -/
theorem lexDelims_ref (n rest acc : List Char) (hn : isIdent n = true) :
    lexDelims (.inText acc) ((Piece.ref n).source ++ rest) =
      (lexDelims (.inText []) rest).map
        (fun cs => Chunk.text acc :: Chunk.action ('.' :: n) :: cs) := by
  have hchars : ∀ c ∈ '.' :: n, c ≠ '}' := by
    intro c hc
    rcases List.mem_cons.mp hc with rfl | hc
    · decide
    · exact ((isIdent_chars n hn).2 c hc).1
  have := lexDelims_action ('.' :: n) rest [] hchars
  simp only [Piece.source, List.cons_append, List.append_assoc, List.nil_append] at this ⊢
  rw [lexDelims]
  simp only [and_self, if_true]
  rw [this]
  cases lexDelims (.inText []) rest <;> simp

/-- The lexer cuts the text of safe pieces into the chunks of the pieces. -/
theorem lexDelims_pieces (ps : List Piece) (acc : List Char) (h : Safe ps = true) :
    lexDelims (.inText acc) (sourceOf ps) = some (chunksOf acc ps) := by
  induction ps generalizing acc with
  | nil => simp [sourceOf, chunksOf, lexDelims]
  | cons p ps ih =>
    cases p with
    | lit s =>
      simp only [Safe, Bool.and_eq_true, Bool.not_eq_true'] at h
      rw [sourceOf, Piece.source, lexDelims_lit s _ acc h.1.1 h.1.2, ih _ h.2, chunksOf]
    | ref n =>
      simp only [Safe, Bool.and_eq_true] at h
      rw [sourceOf, lexDelims_ref n _ acc h.1, ih _ h.2, chunksOf]
      rfl

end Template

namespace Template

/-- Dropping blanks leaves a list alone that is empty or starts with another character. -/
theorem dropWhile_blank_of_head (l : List Char) (h : ∀ c ∈ l.head?, c ≠ ' ') :
    l.dropWhile (· = ' ') = l := by
  cases l with
  | nil => rfl
  | cons c cs =>
    have : c ≠ ' ' := h c (by simp)
    simp [List.dropWhile, this]

/-- A field reference has no blanks to trim. -/
theorem trimBlanks_field (n : List Char) (hn : isIdent n = true) :
    trimBlanks ('.' :: n) = '.' :: n := by
  obtain ⟨hne, hch⟩ := isIdent_chars n hn
  have h1 : ('.' :: n).dropWhile (· = ' ') = '.' :: n :=
    dropWhile_blank_of_head _ (by intro c hc; simp at hc; subst hc; decide)
  have h2 : (('.' :: n).reverse).dropWhile (· = ' ') = ('.' :: n).reverse := by
    apply dropWhile_blank_of_head
    intro c hc
    have hc' : c ∈ ('.' :: n).reverse := List.mem_of_mem_head? hc
    rw [List.mem_reverse] at hc'
    rcases List.mem_cons.mp hc' with rfl | hc'
    · decide
    · exact (hch c hc').2
  unfold trimBlanks
  rw [h1, h2, List.reverse_reverse]

/-- The action `.name` is a field item. -/
theorem classify_field (n : List Char) (hn : isIdent n = true) :
    classify ('.' :: n) = some (.field n) := by
  unfold classify
  rw [trimBlanks_field n hn]
  simp [fieldName, hn]

/-- The items of the chunks of safe pieces. -/
theorem tokens_pieces (ps : List Piece) (acc : List Char) (h : Safe ps = true) :
    tokens (chunksOf acc ps) = some (toksOf acc ps) := by
  induction ps generalizing acc with
  | nil => simp [chunksOf, toksOf, tokens]
  | cons p ps ih =>
    cases p with
    | lit s =>
      simp only [Safe, Bool.and_eq_true] at h
      simpa [chunksOf, toksOf] using ih (acc ++ s) h.2
    | ref n =>
      simp only [Safe, Bool.and_eq_true] at h
      simp [chunksOf, toksOf, tokens, classify_field n h.1, ih [] h.2]

theorem Tree.append_done (a : Tree) : a.append .done = a := by
  induction a with
  | done => rfl
  | text s n ih => simp [Tree.append, ih]
  | field f n ih => simp [Tree.append, ih]
  | ifField f t e n _ _ ih => simp [Tree.append, ih]

theorem Tree.append_assoc (a b c : Tree) : (a.append b).append c = a.append (b.append c) := by
  induction a with
  | done => rfl
  | text s n ih => simp [Tree.append, ih]
  | field f n ih => simp [Tree.append, ih]
  | ifField f t e n _ _ ih => simp [Tree.append, ih]

/-- The parser on the items of pieces: the tree of the pieces follows the list built so
far, and no `if` is opened or closed. -/
theorem parseTokens_pieces (ps : List Piece) (acc : List Char) (cur : Tree) :
    parseTokens (toksOf acc ps) cur [] = .ok (cur.append (treeOf acc ps)) := by
  induction ps generalizing acc cur with
  | nil => simp [toksOf, treeOf, parseTokens]
  | cons p ps ih =>
    cases p with
    | lit s => simpa [toksOf, treeOf] using ih (acc ++ s) cur
    | ref n =>
      simp only [toksOf, treeOf, parseTokens]
      rw [ih, Tree.append_assoc, Tree.append_assoc]
      rfl

/-- `Parse` on a text spelled by safe pieces gives the tree of the pieces. -/
theorem Parse_pieces (text : String) (ps : List Piece) (h : Safe ps = true)
    (htext : text.data = sourceOf ps) :
    Parse text = some (.ok (treeOf [] ps)) := by
  unfold Parse
  rw [htext, lexDelims_pieces ps [] h]
  simp only [tokens_pieces ps [] h, parseTokens_pieces]
  rfl

end Template

namespace Template

/-! ### Executing the tree of a list of pieces -/

theorem mk_eq_window (n : List Char) : String.mk n = "window" ↔ n = "window".data := by
  constructor
  · intro h; exact congrArg String.data h
  · intro h; rw [h]

/-- With only `{{.window}}` placeholders, execution writes the pieces with the value of
`window` in place of every placeholder. -/
theorem exec_onlyWindow (v : String) (ps : List Piece) (acc out : List Char)
    (h : onlyWindow ps = true) :
    exec (Labels.single "window" v) (treeOf acc ps) out =
      .ok (out ++ acc ++ substOf v.data ps) := by
  induction ps generalizing acc out with
  | nil => simp [treeOf, exec, substOf]
  | cons p ps ih =>
    have hps : onlyWindow ps = true := by
      simp only [onlyWindow, List.all_cons, Bool.and_eq_true] at h ⊢
      exact h.2
    cases p with
    | lit s => simp [treeOf, substOf, ih (acc ++ s) out hps]
    | ref n =>
      have hn : n = "window".data := by
        simp only [onlyWindow, List.all_cons, Bool.and_eq_true, decide_eq_true_eq] at h
        exact h.1
      subst hn
      have hlook : Labels.single "window" v (String.mk "window".data) = some v := by
        simp [Labels.single]
      simp only [treeOf, exec, hlook, substOf]
      rw [ih [] _ hps]
      simp

/-- With a placeholder other than `{{.window}}`, execution stops at the first such
placeholder: the data map has no entry for its name. -/
theorem exec_firstForeign (v : String) (ps : List Piece) (acc out : List Char)
    (name : List Char) (h : firstForeign ps = some name) :
    exec (Labels.single "window" v) (treeOf acc ps) out =
      .error (.missingKey (String.mk name)) := by
  induction ps generalizing acc out with
  | nil => simp [firstForeign] at h
  | cons p ps ih =>
    cases p with
    | lit s => simpa [treeOf] using ih (acc ++ s) out (by simpa [firstForeign] using h)
    | ref n =>
      by_cases hn : n = "window".data
      · subst hn
        have hlook : Labels.single "window" v (String.mk "window".data) = some v := by
          simp [Labels.single]
        have h' : firstForeign ps = some name := by simpa [firstForeign] using h
        simp only [treeOf, exec, hlook]
        exact ih [] _ h'
      · have hname : n = name := by simpa [firstForeign, hn] using h
        subst hname
        have hlook : Labels.single "window" v (String.mk n) = none := by
          simp [Labels.single, mk_eq_window, hn]
        simp only [treeOf, exec, hlook]

/-! ### Lists of pieces put one after the other -/

theorem sourceOf_append (ps qs : List Piece) :
    sourceOf (ps ++ qs) = sourceOf ps ++ sourceOf qs := by
  induction ps with
  | nil => rfl
  | cons p ps ih => simp [sourceOf, ih]

theorem substOf_append (v : List Char) (ps qs : List Piece) :
    substOf v (ps ++ qs) = substOf v ps ++ substOf v qs := by
  induction ps with
  | nil => rfl
  | cons p ps ih => cases p <;> simp [substOf, ih]

theorem firstForeign_append (ps qs : List Piece) :
    firstForeign (ps ++ qs) =
      match firstForeign ps with
      | some n => some n
      | none => firstForeign qs := by
  induction ps with
  | nil => rfl
  | cons p ps ih =>
    cases p with
    | lit s => simpa [firstForeign] using ih
    | ref n =>
      by_cases hn : n = "window".data
      · simpa [firstForeign, hn] using ih
      · simp [firstForeign, hn]

theorem startsWithBrace_append (a b : List Char) (ha : startsWithBrace a = false)
    (hb : startsWithBrace b = false) : startsWithBrace (a ++ b) = false := by
  cases a with
  | nil => simpa using hb
  | cons c cs =>
    by_cases hc : c = '{'
    · subst hc; simp [startsWithBrace] at ha
    · simp only [List.cons_append]
      unfold startsWithBrace
      split
      · rename_i heq; cases heq; exact absurd rfl hc
      · rfl

/-- Safe pieces stay safe in front of safe pieces whose text does not start with `{`. -/
theorem Safe_append (ps qs : List Piece) (hp : Safe ps = true) (hq : Safe qs = true)
    (hstart : startsWithBrace (sourceOf qs) = false) : Safe (ps ++ qs) = true := by
  induction ps with
  | nil => simpa using hq
  | cons p ps ih =>
    cases p with
    | ref n =>
      simp only [Safe, Bool.and_eq_true, List.cons_append] at hp ⊢
      exact ⟨hp.1, ih hp.2⟩
    | lit s =>
      simp only [Safe, Bool.and_eq_true, List.cons_append, Bool.not_eq_true',
        Bool.and_eq_false_iff] at hp ⊢
      refine ⟨⟨hp.1.1, ?_⟩, ih hp.2⟩
      rcases hp.1.2 with h | h
      · exact Or.inl h
      · right
        have := startsWithBrace_append _ _ h hstart
        rw [← sourceOf_append] at this
        exact this

end Template

open Template in
/-- The assembled pieces are safe when the pieces of both queries are. -/
theorem assembledPieces_safe (pe pt : List Piece) (he : Safe pe = true) (ht : Safe pt = true) :
    Safe (assembledPieces pe pt) = true := by
  have h3 : Safe (pt ++ [.lit ")\n".data]) = true := Safe_append pt _ ht (by decide) (by decide)
  have h2 : Safe (.lit ")\n/\n(".data :: (pt ++ [.lit ")\n".data])) = true := by
    simp only [Safe, Bool.and_eq_true, Bool.not_eq_true', Bool.and_eq_false_iff]
    exact ⟨⟨by decide, Or.inl (by decide)⟩, h3⟩
  have h1 : Safe (pe ++ .lit ")\n/\n(".data :: (pt ++ [.lit ")\n".data])) = true :=
    Safe_append pe _ he h2 (by rfl)
  unfold assembledPieces
  simp only [Safe, Bool.and_eq_true, Bool.not_eq_true', Bool.and_eq_false_iff]
  exact ⟨⟨by decide, Or.inl (by decide)⟩, h1⟩

open Template in
/-- The template text of an SLO whose queries are spelled by `pe` and `pt`. -/
theorem sliExprTpl_data (slo : SLO) (pe pt : List Piece)
    (he : slo.SLI.ErrorQuery.data = sourceOf pe) (ht : slo.SLI.TotalQuery.data = sourceOf pt) :
    (sliExprTpl slo).data = sourceOf (assembledPieces pe pt) := by
  simp [sliExprTpl, assembledPieces, sourceOf, sourceOf_append, Piece.source, he, ht,
    String.data_append]

theorem string_mk_append (a b : List Char) : String.mk (a ++ b) = String.mk a ++ String.mk b :=
  String.ext (by simp [String.data_append])

open Template in
/-- The builder on an SLO whose queries are spelled by safe pieces: the template parses,
and the result is decided by the execution of the tree of the assembled pieces. -/
theorem default_on_pieces {AlertGroup : Type} (env : Env AlertGroup) (slo : SLO)
    (w : Duration) (pe pt : List Piece) (hse : Safe pe = true) (hst : Safe pt = true)
    (he : slo.SLI.ErrorQuery.data = sourceOf pe) (ht : slo.SLI.TotalQuery.data = sourceOf pt) :
    defaultSLIRecordGenerator env slo w =
      match exec (Labels.single "window" (env.timeDurationToPromStr w))
          (treeOf [] (assembledPieces pe pt)) [] with
      | .error err => .error (.render err)
      | .ok out =>
        .ok { Record := sliMetricName (env.timeDurationToPromStr w), Expr := String.mk out,
              Labels := mergeLabels slo.Labels
                (Labels.single "window" (env.timeDurationToPromStr w)) } := by
  have hparse := Parse_pieces (sliExprTpl slo) (assembledPieces pe pt)
    (assembledPieces_safe pe pt hse hst) (sliExprTpl_data slo pe pt he ht)
  unfold defaultSLIRecordGenerator
  rw [hparse]
  simp only [Execute, tplKeyWindow]
  cases exec (Labels.single "window" (env.timeDurationToPromStr w))
    (treeOf [] (assembledPieces pe pt)) [] <;> rfl

open Template in
/-- The builder on queries made of literal text and `{{.window}}` placeholders. -/
theorem default_on_window_pieces {AlertGroup : Type} (env : Env AlertGroup) (slo : SLO)
    (w : Duration) (pe pt : List Piece) (hse : Safe pe = true) (hst : Safe pt = true)
    (hwe : onlyWindow pe = true) (hwt : onlyWindow pt = true)
    (he : slo.SLI.ErrorQuery.data = sourceOf pe) (ht : slo.SLI.TotalQuery.data = sourceOf pt) :
    ∃ r, defaultSLIRecordGenerator env slo w = .ok r ∧
      r.Expr = "\n(" ++ String.mk (substOf (env.timeDurationToPromStr w).data pe) ++ ")\n/\n(" ++
        String.mk (substOf (env.timeDurationToPromStr w).data pt) ++ ")\n" ∧
      r.Labels "window" = some (env.timeDurationToPromStr w) ∧
      r.Record = "slo:sli_error:ratio_rate" ++ env.timeDurationToPromStr w := by
  have hw : onlyWindow (assembledPieces pe pt) = true := by
    simp only [onlyWindow, assembledPieces, List.all_cons, List.all_append, List.all_nil,
      Bool.and_eq_true] at hwe hwt ⊢
    exact ⟨trivial, hwe, trivial, hwt, trivial, trivial⟩
  have hd := default_on_pieces env slo w pe pt hse hst he ht
  rw [exec_onlyWindow _ _ [] [] hw] at hd
  refine ⟨_, hd, ?_, ?_, rfl⟩
  · simp only [assembledPieces, substOf, substOf_append, List.nil_append, List.append_nil,
      string_mk_append]
    simp [String.append_assoc]
  · simp [mergeLabels, Labels.single]

open Template in
/-- C8: when both queries are made of literal text and `{{.window}}` placeholders only,
`defaultSLIRecordGenerator` succeeds for every window `w`; its `Expr` is the assembled
text in which every placeholder of the error query and of the total query is replaced by
`timeDurationToPromStr(w)` and all other characters are kept, and that same string is the
rule's `window` label and the suffix of its record name. -/
theorem window_placeholder_substituted {AlertGroup : Type} (env : Env AlertGroup) (slo : SLO)
    (w : Duration) (pe pt : List Piece) (hse : Safe pe = true) (hst : Safe pt = true)
    (hwe : onlyWindow pe = true) (hwt : onlyWindow pt = true)
    (he : slo.SLI.ErrorQuery.data = sourceOf pe) (ht : slo.SLI.TotalQuery.data = sourceOf pt) :
    ∃ r, defaultSLIRecordGenerator env slo w = .ok r ∧
      r.Expr = "\n(" ++ String.mk (substOf (env.timeDurationToPromStr w).data pe) ++ ")\n/\n(" ++
        String.mk (substOf (env.timeDurationToPromStr w).data pt) ++ ")\n" ∧
      r.Labels "window" = some (env.timeDurationToPromStr w) ∧
      r.Record = "slo:sli_error:ratio_rate" ++ env.timeDurationToPromStr w :=
  default_on_window_pieces env slo w pe pt hse hst hwe hwt he ht

open Template in
/-- C8, evaluated: `rate(errors[{{.window}}])` over `rate(total[{{.window}}])` at the
window rendered as `5m`. -/
theorem window_placeholder_substituted_witness :
    rateSLO.SLI.ErrorQuery.data
      = sourceOf [.lit "rate(errors[".data, .ref "window".data, .lit "])".data] ∧
    rateSLO.SLI.TotalQuery.data
      = sourceOf [.lit "rate(total[".data, .ref "window".data, .lit "])".data] ∧
    ∃ r, defaultSLIRecordGenerator exampleEnv rateSLO fiveMinutes = .ok r ∧
      r.Expr = "\n(rate(errors[5m]))\n/\n(rate(total[5m]))\n" ∧
      r.Labels "window" = some "5m" ∧
      r.Record = "slo:sli_error:ratio_rate5m" :=
  ⟨by rfl, by rfl,
    window_placeholder_substituted exampleEnv rateSLO fiveMinutes
      [.lit "rate(errors[".data, .ref "window".data, .lit "])".data]
      [.lit "rate(total[".data, .ref "window".data, .lit "])".data]
      (by decide) (by decide) (by decide) (by decide) (by rfl) (by rfl)⟩

/-- C7, refuted: for the queries `errors{job="x"}` and `total{job="x"}`, which hold no
placeholder, and the window `5m`, the built expression keeps the line breaks of the
template and is not the string `(errors{job="x"})/(total{job="x"})`. -/
theorem plain_expression_has_line_breaks :
    Template.hasLeftDelim plainSLO.SLI.ErrorQuery.data = false ∧
    Template.hasLeftDelim plainSLO.SLI.TotalQuery.data = false ∧
    ∃ r, defaultSLIRecordGenerator exampleEnv plainSLO fiveMinutes = .ok r ∧
      r.Expr = "\n(errors\x7bjob=\"x\"\x7d)\n/\n(total\x7bjob=\"x\"\x7d)\n" ∧
      r.Expr ≠ "(" ++ plainSLO.SLI.ErrorQuery ++ ")/(" ++ plainSLO.SLI.TotalQuery ++ ")" ∧
      r.Expr ≠ "(errors\x7bjob=\"x\"\x7d)/(total\x7bjob=\"x\"\x7d)" :=
  ⟨by decide, by decide,
    { Record := "slo:sli_error:ratio_rate5m",
      Expr := "\n(errors\x7bjob=\"x\"\x7d)\n/\n(total\x7bjob=\"x\"\x7d)\n",
      Labels := mergeLabels Labels.empty (Labels.single "window" "5m") },
    by rfl, by rfl, by decide, by decide⟩

open Template in
/-- C7, amended: when neither query holds a template placeholder (no `{{`), the `Expr`
of the rule built by `defaultSLIRecordGenerator` for any window is exactly the text of
the template: a line break, `(` ErrorQuery `)`, a line break, `/`, a line break,
`(` TotalQuery `)` and a line break. -/
theorem plain_queries_expression {AlertGroup : Type} (env : Env AlertGroup) (slo : SLO)
    (w : Duration) (he : hasLeftDelim slo.SLI.ErrorQuery.data = false)
    (ht : hasLeftDelim slo.SLI.TotalQuery.data = false) :
    ∃ r, defaultSLIRecordGenerator env slo w = .ok r ∧
      r.Expr = "\n(" ++ slo.SLI.ErrorQuery ++ ")\n/\n(" ++ slo.SLI.TotalQuery ++ ")\n" := by
  obtain ⟨r, hr, hexpr, _⟩ := default_on_window_pieces env slo w
    [.lit slo.SLI.ErrorQuery.data] [.lit slo.SLI.TotalQuery.data]
    (by simp [Safe, he, startsWithBrace, sourceOf])
    (by simp [Safe, ht, startsWithBrace, sourceOf])
    (by simp [onlyWindow]) (by simp [onlyWindow])
    (by simp [sourceOf, Piece.source]) (by simp [sourceOf, Piece.source])
  refine ⟨r, hr, ?_⟩
  rw [hexpr]
  simp [substOf]

/-- C7 amended, evaluated on the spec's example. -/
theorem plain_queries_expression_witness :
    Template.hasLeftDelim plainSLO.SLI.ErrorQuery.data = false ∧
    Template.hasLeftDelim plainSLO.SLI.TotalQuery.data = false ∧
    ∃ r, defaultSLIRecordGenerator exampleEnv plainSLO fiveMinutes = .ok r ∧
      r.Expr = "\n(errors\x7bjob=\"x\"\x7d)\n/\n(total\x7bjob=\"x\"\x7d)\n" :=
  ⟨by decide, by decide,
    plain_queries_expression exampleEnv plainSLO fiveMinutes (by decide) (by decide)⟩

/-- C6, refuted: the error query of `guardedSLO` contains `{{.foo}}`, yet the builder
succeeds for the window `5m` (the branch with the placeholder is not executed), and
`GenerateSLIRecordingRules` returns rules and no error. -/
theorem foreign_placeholder_in_dead_branch_succeeds :
    "{{.foo}}".data <:+: guardedSLO.SLI.ErrorQuery.data ∧
    (∃ r, defaultSLIRecordGenerator exampleEnv guardedSLO fiveMinutes = .ok r ∧
      r.Expr = "\n(errors)\n/\n(total)\n") ∧
    (GenerateSLIRecordingRules exampleEnv (SLIRecordingRulesGenerator exampleEnv) background
        guardedSLO [fiveMinutes]).err = none ∧
    ((GenerateSLIRecordingRules exampleEnv (SLIRecordingRulesGenerator exampleEnv) background
        guardedSLO [fiveMinutes]).rules.map List.length) = some 2 :=
  ⟨⟨"{{if .window}}errors{{else}}".data, "{{end}}".data, by rfl⟩,
    ⟨{ Record := "slo:sli_error:ratio_rate5m", Expr := "\n(errors)\n/\n(total)\n",
       Labels := mergeLabels Labels.empty (Labels.single "window" "5m") }, by rfl, by rfl⟩,
    by rfl, by rfl⟩

/-- The first window the loop of `GenerateSLIRecordingRules` visits. -/
theorem ruleWindows_eq_cons {AlertGroup : Type} (env : Env AlertGroup) (slo : SLO)
    (alerts : AlertGroup) :
    ∃ rest, ruleWindows env slo alerts =
      ((env.getAlertGroupWindows alerts).head?.getD slo.TimeWindow) :: rest := by
  unfold ruleWindows
  cases env.getAlertGroupWindows alerts with
  | nil => exact ⟨[], rfl⟩
  | cons w ws => exact ⟨ws ++ [slo.TimeWindow], rfl⟩

open Template in
/-- C6, amended: when both queries are made of literal text and placeholders `{{.name}}`
only (no other action), and some placeholder names something other than `window`,
`defaultSLIRecordGenerator` fails for every window with the render error of the first
such placeholder (the data map has no entry for its name); so
`GenerateSLIRecordingRules` with the default builder fails for every alert group at its
first window, with an error that carries `slo.ID`, and returns no rules. -/
theorem foreign_placeholder_fails_render {AlertGroup : Type} (env : Env AlertGroup)
    (slo : SLO) (pe pt : List Piece) (name : List Char)
    (hse : Safe pe = true) (hst : Safe pt = true)
    (he : slo.SLI.ErrorQuery.data = sourceOf pe) (ht : slo.SLI.TotalQuery.data = sourceOf pt)
    (hf : firstForeign (pe ++ pt) = some name) :
    (∀ w, defaultSLIRecordGenerator env slo w
      = .error (.render (.missingKey (String.mk name)))) ∧
    ∀ ctx alerts,
      GenerateSLIRecordingRules env (SLIRecordingRulesGenerator env) ctx slo alerts =
        { rules := none,
          err := some
            { sloID := slo.ID,
              window := (env.getAlertGroupWindows alerts).head?.getD slo.TimeWindow,
              cause := .render (.missingKey (String.mk name)) } } := by
  have hff : firstForeign (assembledPieces pe pt) = some name := by
    have h1 : firstForeign (pt ++ [Piece.lit ")\n".data]) = firstForeign pt := by
      rw [firstForeign_append]
      cases firstForeign pt <;> rfl
    have h2 : firstForeign (pe ++ Piece.lit ")\n/\n(".data :: (pt ++ [Piece.lit ")\n".data]))
        = firstForeign (pe ++ pt) := by
      rw [firstForeign_append, firstForeign_append]
      simp only [firstForeign, h1]
    simpa [assembledPieces, firstForeign, h2] using hf
  have hbuild : ∀ w, defaultSLIRecordGenerator env slo w
      = .error (.render (.missingKey (String.mk name))) := by
    intro w
    rw [default_on_pieces env slo w pe pt hse hst he ht, exec_firstForeign _ _ _ _ name hff]
  refine ⟨hbuild, ?_⟩
  intro ctx alerts
  obtain ⟨rest, hrest⟩ := ruleWindows_eq_cons env slo alerts
  unfold GenerateSLIRecordingRules
  rw [hrest]
  simp only [rulesLoop, SLIRecordingRulesGenerator, hbuild]

open Template in
/-- C6 amended, evaluated: the error query `errors{job="{{.foo}}"}` makes every build
fail with the missing key `foo`. -/
theorem foreign_placeholder_fails_render_witness :
    foreignSLO.SLI.ErrorQuery.data
      = sourceOf [.lit "errors\x7bjob=\"".data, .ref "foo".data, .lit "\"\x7d".data] ∧
    foreignSLO.SLI.TotalQuery.data
      = sourceOf [.lit "total[".data, .ref "window".data, .lit "]".data] ∧
    defaultSLIRecordGenerator exampleEnv foreignSLO fiveMinutes
      = .error (.render (.missingKey "foo")) ∧
    GenerateSLIRecordingRules exampleEnv (SLIRecordingRulesGenerator exampleEnv) background
        foreignSLO [oneHour] =
      { rules := none,
        err := some { sloID := "foreign", window := oneHour,
                      cause := .render (.missingKey "foo") } } :=
  have h := foreign_placeholder_fails_render exampleEnv foreignSLO
    [.lit "errors\x7bjob=\"".data, .ref "foo".data, .lit "\"\x7d".data]
    [.lit "total[".data, .ref "window".data, .lit "]".data] "foo".data
    (by decide) (by decide) (by rfl) (by rfl) (by decide)
  ⟨by rfl, by rfl, h.1 fiveMinutes, h.2 background [oneHour]⟩

namespace Template

/-! ### Unclosed actions -/

theorem hasRightDelim_cons_ne (c : Char) (t : List Char) (hc : c ≠ '}') :
    hasRightDelim (c :: t) = hasRightDelim t := by
  cases t with
  | nil => rfl
  | cons d r => simp [hasRightDelim, hc]

theorem hasRightDelim_tail (c : Char) (t : List Char) (h : hasRightDelim (c :: t) = false) :
    hasRightDelim t = false := by
  cases t with
  | nil => rfl
  | cons d r =>
    simp only [hasRightDelim, Bool.or_eq_false_iff] at h
    exact h.2

/-- Text without `}}` stays so in front of text without `}}` that does not start with `}`. -/
theorem hasRightDelim_append (a b : List Char) (ha : hasRightDelim a = false)
    (hb : hasRightDelim b = false) (hhead : ∀ c ∈ b.head?, c ≠ '}') :
    hasRightDelim (a ++ b) = false := by
  induction a with
  | nil => simpa using hb
  | cons c a ih =>
    have ih' := ih (hasRightDelim_tail c a ha)
    cases a with
    | nil =>
      cases b with
      | nil => rfl
      | cons d r =>
        have hd : d ≠ '}' := hhead d (by simp)
        simp only [List.cons_append, List.nil_append, hasRightDelim, Bool.or_eq_false_iff,
          Bool.and_eq_false_iff, decide_eq_false_iff_not]
        exact ⟨Or.inr hd, by simpa using ih'⟩
    | cons d r =>
      simp only [hasRightDelim, Bool.or_eq_false_iff] at ha
      simp only [List.cons_append, hasRightDelim, Bool.or_eq_false_iff]
      exact ⟨ha.1, by simpa using ih'⟩

/-- Inside an action, text without `}}` never closes the action. -/
theorem lexDelims_inAction_none (t acc : List Char) (h : hasRightDelim t = false) :
    lexDelims (.inAction acc) t = none := by
  induction t generalizing acc with
  | nil => rfl
  | cons c t ih =>
    cases t with
    | nil => rfl
    | cons d r =>
      have h' := h
      simp only [hasRightDelim, Bool.or_eq_false_iff, Bool.and_eq_false_iff,
        decide_eq_false_iff_not] at h'
      have hne : ¬ (c = '}' ∧ d = '}') := by
        rintro ⟨h1, h2⟩
        rcases h'.1 with h3 | h3
        · exact h3 h1
        · exact h3 h2
      rw [lexDelims]
      simp only [hne, if_false]
      exact ih _ h'.2

/-- A `{{` after which no `}}` follows makes the lexer fail, whatever comes before it and
in whatever state the lexer is. -/
theorem lexDelims_unclosed (t : List Char) (h : hasRightDelim t = false) :
    ∀ (n : Nat) (x : List Char) (st : LexState), x.length ≤ n →
      lexDelims st (x ++ '{' :: '{' :: t) = none := by
  have hopen : hasRightDelim ('{' :: t) = false := by
    rw [hasRightDelim_cons_ne _ _ (by decide)]; exact h
  have hopen2 : hasRightDelim ('{' :: '{' :: t) = false := by
    rw [hasRightDelim_cons_ne _ _ (by decide)]; exact hopen
  intro n
  induction n with
  | zero =>
    intro x st hx
    have : x = [] := List.length_eq_zero.mp (Nat.le_zero.mp hx)
    subst this
    cases st with
    | inText acc => simp [lexDelims, lexDelims_inAction_none t [] h]
    | inAction acc => exact lexDelims_inAction_none _ _ hopen2
  | succ n ih =>
    intro x st hx
    cases x with
    | nil => exact ih [] st (Nat.zero_le _)
    | cons c x =>
      have hxl : x.length ≤ n := by simpa using hx
      cases x with
      | nil =>
        cases st with
        | inText acc =>
          simp only [List.cons_append, List.nil_append]
          rw [lexDelims]
          split
          · simp [lexDelims_inAction_none _ [] hopen]
          · exact ih [] _ (Nat.zero_le _)
        | inAction acc =>
          simp only [List.cons_append, List.nil_append]
          rw [lexDelims]
          split
          · rename_i hcd; exact absurd hcd.2 (by decide)
          · exact ih [] _ (Nat.zero_le _)
      | cons d x =>
        have hxl' : x.length ≤ n := by
          simp only [List.length_cons] at hxl
          omega
        cases st with
        | inText acc =>
          simp only [List.cons_append]
          rw [lexDelims]
          split
          · simp [ih x _ hxl']
          · exact ih (d :: x) _ hxl
        | inAction acc =>
          simp only [List.cons_append]
          rw [lexDelims]
          split
          · simp [ih x _ hxl']
          · exact ih (d :: x) _ hxl

/-- `Parse` on a text with an action left unclosed. -/
theorem Parse_unclosed (text : String) (x t : List Char) (htext : text.data = x ++ '{' :: '{' :: t)
    (h : hasRightDelim t = false) : Parse text = some (.error .unclosedAction) := by
  unfold Parse
  rw [htext, lexDelims_unclosed t h x.length x _ (Nat.le_refl _)]

end Template

/-- C10, refuted: `{{if .window}}a` alone ends before its `end` and `b{{end}}` alone has
an `end` without an opening block, yet `defaultSLIRecordGenerator` builds a rule from the
two: the template it parses is the assembled text, which is valid. -/
theorem individually_invalid_queries_accepted :
    Template.Parse splitSLO.SLI.ErrorQuery = some (.error .unexpectedEOF) ∧
    Template.Parse splitSLO.SLI.TotalQuery = some (.error .unexpectedEnd) ∧
    ∃ r, defaultSLIRecordGenerator exampleEnv splitSLO fiveMinutes = .ok r ∧
      r.Expr = "\n(a)\n/\n(b)\n" :=
  ⟨by rfl, by rfl,
    { Record := "slo:sli_error:ratio_rate5m", Expr := "\n(a)\n/\n(b)\n",
      Labels := mergeLabels Labels.empty (Labels.single "window" "5m") },
    by rfl, by rfl⟩

open Template in
/-- C10, amended: `defaultSLIRecordGenerator` parses the two queries only once they are
assembled into one template text. For every SLO and window it fails with a templating
error and returns no rule whenever that assembled text is not a valid template; this is
so, whatever the other query is, when the total query leaves an action unclosed, and
when the error query leaves an action unclosed that the total query does not close.
Queries that are invalid only individually are not rejected for that. -/
theorem invalid_assembled_template_fails {AlertGroup : Type} (env : Env AlertGroup)
    (slo : SLO) (w : Duration) :
    (∀ e, Parse (sliExprTpl slo) = some (.error e) →
      defaultSLIRecordGenerator env slo w = .error (.createTemplate e)) ∧
    (∀ a b, slo.SLI.TotalQuery.data = a ++ '{' :: '{' :: b → hasRightDelim b = false →
      defaultSLIRecordGenerator env slo w = .error (.createTemplate .unclosedAction)) ∧
    (∀ a b, slo.SLI.ErrorQuery.data = a ++ '{' :: '{' :: b → hasRightDelim b = false →
      hasRightDelim slo.SLI.TotalQuery.data = false →
      defaultSLIRecordGenerator env slo w = .error (.createTemplate .unclosedAction)) := by
  have hA : ∀ e, Parse (sliExprTpl slo) = some (.error e) →
      defaultSLIRecordGenerator env slo w = .error (.createTemplate e) := by
    intro e he
    unfold defaultSLIRecordGenerator
    rw [he]
  refine ⟨hA, ?_, ?_⟩
  · intro a b hT hb
    apply hA
    refine Parse_unclosed (sliExprTpl slo)
      ("\n(".data ++ slo.SLI.ErrorQuery.data ++ ")\n/\n(".data ++ a) (b ++ ")\n".data) ?_ ?_
    · simp [sliExprTpl, String.data_append, hT]
    · exact hasRightDelim_append b _ hb (by decide) (by intro c hc; simp at hc; subst hc; decide)
  · intro a b hE hb hT
    apply hA
    refine Parse_unclosed (sliExprTpl slo) ("\n(".data ++ a)
      (b ++ (")\n/\n(".data ++ (slo.SLI.TotalQuery.data ++ ")\n".data))) ?_ ?_
    · simp [sliExprTpl, String.data_append, hE]
    · have h1 : hasRightDelim (slo.SLI.TotalQuery.data ++ ")\n".data) = false :=
        hasRightDelim_append _ _ hT (by decide) (by intro c hc; simp at hc; subst hc; decide)
      have h2 : hasRightDelim (")\n/\n(".data ++ (slo.SLI.TotalQuery.data ++ ")\n".data))
          = false := by
        show hasRightDelim (')' :: '\n' :: '/' :: '\n' :: '(' ::
          (slo.SLI.TotalQuery.data ++ ")\n".data)) = false
        rw [hasRightDelim_cons_ne _ _ (by decide), hasRightDelim_cons_ne _ _ (by decide),
          hasRightDelim_cons_ne _ _ (by decide), hasRightDelim_cons_ne _ _ (by decide),
          hasRightDelim_cons_ne _ _ (by decide)]
        exact h1
      exact hasRightDelim_append b _ hb h2 (by intro c hc; simp at hc; subst hc; decide)

/-- C10 amended, evaluated: the total query `total[{{.window]` leaves its action
unclosed, and the build fails with the parse error. -/
theorem invalid_assembled_template_fails_witness :
    unclosedSLO.SLI.TotalQuery.data = "total[".data ++ '{' :: '{' :: ".window]".data ∧
    Template.hasRightDelim ".window]".data = false ∧
    defaultSLIRecordGenerator exampleEnv unclosedSLO fiveMinutes
      = .error (.createTemplate .unclosedAction) :=
  ⟨by rfl, by decide,
    (invalid_assembled_template_fails exampleEnv unclosedSLO fiveMinutes).2.1
      "total[".data ".window]".data (by rfl) (by decide)⟩

/-! ### The context and the frame of the labels -/

/-- C11, refuted: with a context that is already cancelled, `GenerateSLIRecordingRules`
still builds the rule of every window and returns the full list without error. -/
theorem cancelled_context_still_generates :
    cancelledContext.cancelled = true ∧
    GenerateSLIRecordingRules exampleEnv (SLIRecordingRulesGenerator exampleEnv)
        cancelledContext availabilitySLO [fiveMinutes] =
      { rules := some [addExtraLabels availabilitySLO (availabilityRule fiveMinutes),
          addExtraLabels availabilitySLO (availabilityRule thirtyDays)],
        err := none } :=
  ⟨rfl, by rfl⟩

/-- C11, amended: `GenerateSLIRecordingRules` does not read its context. For every SLO
and alert group the call returns the same result whether or not the context is
cancelled; there is no cancellation check in the loop over the windows, and a call with
a cancelled context whose builds all succeed returns the full rule list. -/
theorem context_is_not_read {AlertGroup E : Type} (env : Env AlertGroup)
    (s : sliRecordingRulesGenerator E) (ctx ctx' : Context) (slo : SLO) (alerts : AlertGroup) :
    GenerateSLIRecordingRules env s ctx slo alerts
      = GenerateSLIRecordingRules env s ctx' slo alerts ∧
    ∀ build : Duration → Rule,
      (∀ w ∈ ruleWindows env slo alerts, s.genFunc slo w = .ok (build w)) →
      GenerateSLIRecordingRules env s { cancelled := true } slo alerts =
        { rules := some ((ruleWindows env slo alerts).map
            (fun w => addExtraLabels slo (build w))),
          err := none } := by
  refine ⟨rfl, ?_⟩
  intro build h
  have hres := rulesLoop_ok s slo build (ruleWindows env slo alerts) [] h
  unfold GenerateSLIRecordingRules
  rw [hres]
  simp

/-- The labels of a rule built by the default builder: the rendered window under
`window`, the SLO's own label under every other key. -/
theorem default_ok_labels {AlertGroup : Type} (env : Env AlertGroup) (slo : SLO)
    (w : Duration) (r : Rule) (h : defaultSLIRecordGenerator env slo w = .ok r) (k : String) :
    r.Labels k = if k = "window" then some (env.timeDurationToPromStr w) else slo.Labels k := by
  rw [(default_ok_shape env slo w r h).2]
  simp only [mergeLabels, Labels.single]
  split_ifs <;> rfl

/-- C13: when `GenerateSLIRecordingRules` with the default builder returns without
error, the keys of every returned rule's labels are exactly the keys of `slo.Labels`
together with `window`, `sloth_slo` and `sloth_service`; under every key of `slo.Labels`
other than these three the rule carries the SLO's value unchanged; and two rules of the
call differ in their labels at most under `window`. -/
theorem labels_frame {AlertGroup : Type} (env : Env AlertGroup) (ctx : Context) (slo : SLO)
    (alerts : AlertGroup)
    (h : (GenerateSLIRecordingRules env (SLIRecordingRulesGenerator env) ctx slo alerts).err
      = none) :
    ∃ rules,
      (GenerateSLIRecordingRules env (SLIRecordingRulesGenerator env) ctx slo alerts).rules
        = some rules ∧
      (∀ r ∈ rules, ∀ k,
        (r.Labels k ≠ none ↔
          slo.Labels k ≠ none ∨ k = "window" ∨ k = "sloth_slo" ∨ k = "sloth_service") ∧
        (k ≠ "window" → k ≠ "sloth_slo" → k ≠ "sloth_service" → r.Labels k = slo.Labels k)) ∧
      ∀ r ∈ rules, ∀ r' ∈ rules, ∀ k, k ≠ "window" → r.Labels k = r'.Labels k := by
  obtain ⟨rules, hres, hrel⟩ := generate_success env _ ctx slo alerts h
  have hlab : ∀ r ∈ rules, ∃ w, ∀ k, r.Labels k =
      if k = "sloth_service" then some slo.Service
      else if k = "sloth_slo" then some slo.ID
      else if k = "window" then some (env.timeDurationToPromStr w) else slo.Labels k := by
    intro r hr
    obtain ⟨w, _, r0, h0, rfl⟩ := forall₂_mem_right hrel r hr
    refine ⟨w, fun k => ?_⟩
    rw [addExtraLabels_labels, default_ok_labels env slo w r0 h0]
  refine ⟨rules, by rw [hres], ?_, ?_⟩
  · intro r hr k
    obtain ⟨w, hk⟩ := hlab r hr
    rw [hk k]
    constructor
    · by_cases h1 : k = "sloth_service"
      · simp [h1]
      · by_cases h2 : k = "sloth_slo"
        · simp [h2]
        · by_cases h3 : k = "window"
          · simp [h3]
          · simp [h1, h2, h3]
    · intro h3 h2 h1
      simp [h1, h2, h3]
  · intro r hr r' hr' k hk
    obtain ⟨w, h1⟩ := hlab r hr
    obtain ⟨w', h2⟩ := hlab r' hr'
    rw [h1 k, h2 k]
    simp [hk]

/-- C13, evaluated: the rules of `teamSLO` keep its label `team` and add the three
generated labels. -/
theorem labels_frame_witness :
    (GenerateSLIRecordingRules exampleEnv (SLIRecordingRulesGenerator exampleEnv) background
        teamSLO [fiveMinutes]).err = none ∧
    teamSLO.Labels "team" = some "payments" ∧
    ∃ rules,
      (GenerateSLIRecordingRules exampleEnv (SLIRecordingRulesGenerator exampleEnv) background
        teamSLO [fiveMinutes]).rules = some rules ∧
      (∀ r ∈ rules, ∀ k,
        (r.Labels k ≠ none ↔
          teamSLO.Labels k ≠ none ∨ k = "window" ∨ k = "sloth_slo" ∨ k = "sloth_service") ∧
        (k ≠ "window" → k ≠ "sloth_slo" → k ≠ "sloth_service" →
          r.Labels k = teamSLO.Labels k)) ∧
      ∀ r ∈ rules, ∀ r' ∈ rules, ∀ k, k ≠ "window" → r.Labels k = r'.Labels k :=
  ⟨by rfl, by rfl,
    labels_frame exampleEnv background teamSLO [fiveMinutes] (by rfl)⟩

end Sloth
